import Mathlib

/-!
# Verification of the jar-tracking web application

Shallow embedding of the two Python application variants
(`jar_tracking_website.py`, the canonical variant, and
`jar_tracking_old.py`, the stale duplicate) and proofs of the
specification claims about them.

Conventions of the embedding:
* distances and thresholds are rationals (`ℚ`) — the Python floats are
  used only to carry decimal sensor values, and no claim depends on
  binary floating-point rounding;
* the numeric parsing done by Python's `int()` / `float()` is modelled
  on the plain decimal literal forms the device emits: an optional sign
  followed by digits, with an optional fractional part for `float()`
  (exotic accepted forms such as exponents, `inf`, underscores are
  outside the modelled input alphabet);
* Python dictionaries are association lists with Python's
  update-in-place / append-if-new semantics (insertion order kept);
* the wall-clock timestamp of each loop iteration or request is an
  abstract `Nat` supplied as an input;
* JSON request bodies are modelled at the types the endpoints expect,
  with `none` (or `0` / `""`, which are falsy in Python) covering the
  missing / falsy field cases;
* every modelled operation is a total Lean function, which embeds the
  fact that the corresponding handler raises no exception on the
  modelled inputs.
-/

namespace JarTrack

/-! ## Python-style string and numeric field handling

Strings are processed as their character lists: Python's `str.strip`,
`str.split`, `str.startswith`, `int()` and `float()` are modelled by
structurally recursive functions on `List Char`. -/

/-- Python `str.strip()`: drop leading and trailing whitespace. -/
def pyStrip (cs : List Char) : List Char :=
  ((cs.dropWhile Char.isWhitespace).reverse.dropWhile Char.isWhitespace).reverse

/-- Python `str.split(sep)` for a one-character separator: split into
the (possibly empty) runs between occurrences of `sep`. -/
def pySplit (sep : Char) : List Char → List (List Char)
  | [] => [[]]
  | c :: cs =>
    if c = sep then [] :: pySplit sep cs
    else
      match pySplit sep cs with
      | [] => [[c]]
      | h :: t => (c :: h) :: t

/-- Numeric value of a decimal digit character. -/
def digitVal (c : Char) : Option Nat :=
  if c.isDigit then some (c.toNat - 48) else none

/-- Value of a nonempty all-digit character list; `none` otherwise.
Models the digit-run part of Python's `int()` / `float()` grammars. -/
def digitsVal (cs : List Char) : Option Nat :=
  if cs.isEmpty then none
  else cs.foldlM (fun acc c => (digitVal c).map fun d => acc * 10 + d) 0

/-- `int(s)` on a plain decimal literal: optional sign then digits. -/
def pyInt : List Char → Option Int
  | '-' :: rest => (digitsVal rest).map fun n => -(n : Int)
  | '+' :: rest => (digitsVal rest).map fun n => (n : Int)
  | cs => (digitsVal cs).map fun n => (n : Int)

/-- Value of an unsigned decimal with optional fractional part
(`"12"`, `"12.5"`, `"12."`, `".5"`). -/
def pyUnsignedFloat (cs : List Char) : Option ℚ :=
  match pySplit '.' cs with
  | [w] => (digitsVal w).map fun n => (n : ℚ)
  | [w, f] =>
    if w.isEmpty && f.isEmpty then none
    else if (w.all Char.isDigit) && (f.all Char.isDigit) then
      some ((w.foldl (fun acc c => acc * 10 + (c.toNat - 48)) 0 : Nat) +
        mkRat (f.foldl (fun acc c => acc * 10 + (c.toNat - 48)) 0 : Nat) (10 ^ f.length))
    else none
  | _ => none

/-- `float(s)` on a plain decimal literal: optional sign then an
unsigned decimal with optional fractional part. -/
def pyFloat : List Char → Option ℚ
  | '-' :: rest => (pyUnsignedFloat rest).map fun q => -q
  | '+' :: rest => pyUnsignedFloat rest
  | cs => pyUnsignedFloat cs

/-- Floor of a rational, computed by floor division of the numerator
by the denominator. -/
def ratFloor (q : ℚ) : Int := Int.fdiv q.num (q.den : Int)

/-- Python's banker's rounding to an integer (`round(q)`):
round half to even. -/
def roundHalfEven (q : ℚ) : Int :=
  if q - (ratFloor q : ℚ) < mkRat 1 2 then ratFloor q
  else if mkRat 1 2 < q - (ratFloor q : ℚ) then ratFloor q + 1
  else if ratFloor q % 2 = 0 then ratFloor q else ratFloor q + 1

/-- `round(q, 1)`: one decimal place, half to even. -/
def pyRound1 (q : ℚ) : ℚ := mkRat (roundHalfEven (q * 10)) 10

/-! ## Python-dict model: insertion-ordered association lists -/

/-- `m[k] = v` on a Python dict: update in place if the key exists,
else append the new binding at the end. -/
def dictSet [DecidableEq κ] (m : List (κ × α)) (k : κ) (v : α) : List (κ × α) :=
  if m.any (fun p => p.1 = k) then
    m.map (fun p => if p.1 = k then (k, v) else p)
  else m ++ [(k, v)]

/-- `m.get(k)` / `m[k]` read on a Python dict. -/
def dictGet [DecidableEq κ] (m : List (κ × α)) (k : κ) : Option α :=
  (m.find? (fun p => p.1 = k)).map Prod.snd

/-! ## Data model of `jar_tracking_website.py` -/

/-- `latest_data`: the latest Reading.  Fields are `none` before the
first reading, as in the initial Python dict. -/
structure Reading where
  dist1 : Option ℚ
  state1 : Option Int
  dist2 : Option ℚ
  state2 : Option Int
  lower : ℚ
  upper : ℚ
deriving DecidableEq

/-- An `event_log` entry `{"time", "row", "event", "distance"}`. -/
structure Event where
  time : Nat
  row : Nat
  label : String
  distance : ℚ
deriving DecidableEq

/-- A `misplaced_jars` entry `{"jar", "found_in", "correct_row", "time"}`. -/
structure MisplacedEntry where
  jar : String
  found_in : Int
  correct_row : Option Nat
  time : Nat
deriving DecidableEq

/-- A `jar_status` value `{"status", "row", "time"}`. -/
structure JarRec where
  status : String
  row : Nat
  time : Option Nat
deriving DecidableEq

/-- The shared global state of `jar_tracking_website.py`, together with
the `prev_state1` / `prev_state2` locals of the `read_serial` loop. -/
structure ServerState where
  latest : Reading
  eventLog : List Event
  alerts : List (Nat × Bool)
  misplaced : List MisplacedEntry
  jarStatus : List (String × JarRec)
  prev1 : Option Int
  prev2 : Option Int
deriving DecidableEq

/-- `row_jars`: the static per-row jar catalog. -/
def row_jars : List (Nat × List String) :=
  [(1, ["H004040", "H004041"]),
   (2, ["R0244", "R0245", "R0246", "R0247", "R47376", "R47346", "R47347"])]

/-- The initial global state (module top level of the Python file). -/
def initState : ServerState :=
  { latest := { dist1 := none, state1 := none, dist2 := none, state2 := none,
                lower := 30, upper := 40 },
    eventLog := [], alerts := [(1, false), (2, false)], misplaced := [],
    jarStatus := [], prev1 := none, prev2 := none }

/-! ## The ingest loop (`read_serial`, serial branch) -/

/-- `1 if raw > 0 else 0`: normalization of a raw Arduino state value. -/
def normState (raw : Int) : Int := if 0 < raw then 1 else 0

/-- A successfully parsed line, after state normalization and threshold
defaulting (the values bound just before `latest_data.update`). -/
structure Parsed where
  dist1 : ℚ
  state1 : Int
  dist2 : ℚ
  state2 : Int
  lower : ℚ
  upper : ℚ
deriving DecidableEq

/-- `float(parts[4]) if len(parts) > 4 else 30.0` on the fields past
the fourth. -/
def parseLower : List (List Char) → Option ℚ
  | [] => some (30 : ℚ)
  | e :: _ => pyFloat e

/-- `float(parts[5]) if len(parts) > 5 else 40.0` on the fields past
the fourth. -/
def parseUpper : List (List Char) → Option ℚ
  | _ :: f :: _ => pyFloat f
  | _ => some (40 : ℚ)

/-- Parse the comma-split fields of a line: `float(parts[0])`,
`int(parts[1])`, `float(parts[2])`, `int(parts[3])`, normalization of
the states, and `float(parts[4])` / `float(parts[5])` defaulting to
`30.0` / `40.0` when absent.  `none` models the
`(ValueError, IndexError)` branch that discards the line. -/
def parseFields : List (List Char) → Option Parsed
  | a :: b :: c :: d :: rest =>
    match pyFloat a, pyInt b, pyFloat c, pyInt d with
    | some d1, some s1, some d2, some s2 =>
      match parseLower rest, parseUpper rest with
      | some lo, some hi =>
        some ⟨d1, normState s1, d2, normState s2, lo, hi⟩
      | _, _ => none
    | _, _, _, _ => none
  | _ => none

/-- Lines 80–98 of `read_serial`: strip the raw line, discard empty and
header lines, split on commas, discard lines with fewer than 4 fields,
parse the fields. -/
def parseLine (raw : String) : Option Parsed :=
  if (pyStrip raw.data).isEmpty then none
  else if "Dist1".data.isPrefixOf (pyStrip raw.data) then none
  else if (pySplit ',' (pyStrip raw.data)).length < 4 then none
  else parseFields (pySplit ',' (pyStrip raw.data))

/-- The guard `prev_state is not None and prev_state != state and
state == 1` of the event/alert branch of `read_serial`. -/
def fireFlag (prev : Option Int) (new : Int) : Bool :=
  match prev with
  | some ps => if ps ≠ new ∧ new = 1 then true else false
  | none => false

/-- One iteration of the `read_serial` loop (serial branch) on an input
line read at time `t`: update `latest_data`, append a "Needs checking"
event and set the row's alert on each transition to state 1, remember
the new states.  A discarded line leaves the state unchanged. -/
def read_serial_step (st : ServerState) (t : Nat) (raw : String) : ServerState :=
  match parseLine raw with
  | none => st
  | some p =>
    let fire1 : Bool := fireFlag st.prev1 p.state1
    let fire2 : Bool := fireFlag st.prev2 p.state2
    let log1 := if fire1 then
        st.eventLog ++ [⟨t, 1, "Needs checking", pyRound1 p.dist1⟩] else st.eventLog
    let log2 := if fire2 then
        log1 ++ [⟨t, 2, "Needs checking", pyRound1 p.dist2⟩] else log1
    let al1 := if fire1 then dictSet st.alerts 1 true else st.alerts
    let al2 := if fire2 then dictSet al1 2 true else al1
    { latest := { dist1 := some p.dist1, state1 := some p.state1,
                  dist2 := some p.dist2, state2 := some p.state2,
                  lower := p.lower, upper := p.upper },
      eventLog := log2, alerts := al2, misplaced := st.misplaced,
      jarStatus := st.jarStatus, prev1 := some p.state1, prev2 := some p.state2 }

/-- Run the ingest loop over a list of timestamped input lines. -/
def runIngest (st : ServerState) (tr : List (Nat × String)) : ServerState :=
  tr.foldl (fun s p => read_serial_step s p.1 p.2) st

/-! ## REST endpoints -/

/-- Response of `/clear_alert/<int:row>` (always `{"success": True}`). -/
structure ClearResp where
  success : Bool
deriving DecidableEq

/-- `/clear_alert/<int:row>`: `alerts[row] = False`, unconditionally. -/
def clear_alert (st : ServerState) (row : Nat) : ServerState × ClearResp :=
  ({ st with alerts := dictSet st.alerts row false }, ⟨true⟩)

/-- `/log`: the last 50 events, `event_log[-50:]`. -/
def get_log (log : List Event) : List Event :=
  log.drop (log.length - 50)

/-- The sequence of events rendered by the `/event_log` page:
`event_log[-100:] if event_log else []`, then reversed
("newest first") before the table rows are built. -/
def event_log_page (log : List Event) : List Event :=
  (if log.isEmpty then [] else log.drop (log.length - 100)).reverse

/-- Request body of `/mark_wrong_jar`; `none` models an absent field,
and the empty string / zero are the falsy JSON values of each type. -/
structure WrongJarReq where
  jar : Option String
  found_in : Option Int
deriving DecidableEq

/-- Response of `/mark_wrong_jar`. -/
inductive WrongJarResp where
  | failure (error : String) (httpStatus : Nat)
  | ok (message : String) (correct_row : Option Nat)
deriving DecidableEq

/-- `success` field of a `/mark_wrong_jar` response. -/
def WrongJarResp.success : WrongJarResp → Bool
  | .failure _ _ => false
  | .ok _ _ => true

/-- Python truthiness of an optional string (`not jar`). -/
def truthyStr : Option String → Bool
  | none => false
  | some s => !s.isEmpty

/-- Python truthiness of an optional integer (`not found_in`). -/
def truthyInt : Option Int → Bool
  | none => false
  | some n => n ≠ 0

/-- Python truthiness of an optional natural (`not row`). -/
def truthyNat : Option Nat → Bool
  | none => false
  | some n => n ≠ 0

/-- The `for row, jars in row_jars.items(): if jar in jars` search for
the catalog row of a jar (first match, in catalog order). -/
def findCorrectRow (jar : String) : Option Nat :=
  (row_jars.find? (fun p => jar ∈ p.2)).map Prod.fst

/-- `/mark_wrong_jar`: reject missing/falsy fields with a 400 error;
otherwise append a misplaced entry carrying the catalog row (or `None`)
and answer success with a message that reports the correct row or
"not found". -/
def wrongJarMessage (jar : String) : Option Nat → String
  | some r => "Jar " ++ jar ++ " belongs in Row " ++ toString r
  | none => "Jar not found in database."

def mark_wrong_jar (st : ServerState) (t : Nat) (req : WrongJarReq) :
    ServerState × WrongJarResp :=
  if !truthyStr req.jar || !truthyInt req.found_in then
    (st, .failure "Missing data" 400)
  else
    ({ st with misplaced := st.misplaced ++
         [⟨req.jar.getD "", req.found_in.getD 0,
           findCorrectRow (req.jar.getD ""), t⟩] },
     .ok (wrongJarMessage (req.jar.getD "") (findCorrectRow (req.jar.getD "")))
       (findCorrectRow (req.jar.getD "")))

/-- Request body of `/update_jar_status`. -/
structure UpdateReq where
  jar_id : Option String
  status : Option String
  row : Option Nat
deriving DecidableEq

/-- Response of `/update_jar_status`. -/
inductive UpdateResp where
  | failure (error : String) (httpStatus : Nat)
  | ok (message : String)
deriving DecidableEq

/-- `/update_jar_status`: validate presence of the fields, the status
value, and membership of the jar in the given catalog row; on success
store the new `jar_status` record. -/
def update_jar_status (st : ServerState) (t : Nat) (req : UpdateReq) :
    ServerState × UpdateResp :=
  if !truthyStr req.jar_id || !truthyStr req.status || !truthyNat req.row then
    (st, .failure "Missing required data" 400)
  else if req.status.getD "" ≠ "present" ∧ req.status.getD "" ≠ "missing" then
    (st, .failure "Invalid status" 400)
  else
    match dictGet row_jars (req.row.getD 0) with
    | none => (st, .failure "Jar not found in specified row" 400)
    | some jars =>
      if req.jar_id.getD "" ∉ jars then
        (st, .failure "Jar not found in specified row" 400)
      else
        ({ st with jarStatus := dictSet st.jarStatus (req.jar_id.getD "") (JarRec.mk (req.status.getD "") (req.row.getD 0) (some t)) },
         .ok ("Jar " ++ req.jar_id.getD "" ++ " marked as " ++ req.status.getD ""))

/-- Response of `/get_jar_status/<int:row>`. -/
inductive GetStatusResp where
  | failure (error : String) (httpStatus : Nat)
  | ok (jars : List (String × JarRec))
deriving DecidableEq

/-- `/get_jar_status/<int:row>`: 404 for a row outside the catalog,
else the stored record of every jar of the row, defaulting to
"unchecked". -/
def get_jar_status (st : ServerState) (row : Nat) : GetStatusResp :=
  match dictGet row_jars row with
  | none => .failure "Invalid row" 404
  | some jars =>
    .ok (jars.map fun j => (j, (dictGet st.jarStatus j).getD ⟨"unchecked", row, none⟩))

/-! ## Reachable states -/

/-- A state-mutating operation of the application: one ingest-loop
iteration or one state-changing HTTP request.  (The remaining endpoints
only read the shared state.) -/
inductive Op where
  | ingest (t : Nat) (line : String)
  | clearAlert (row : Nat)
  | markWrong (t : Nat) (req : WrongJarReq)
  | setStatus (t : Nat) (req : UpdateReq)
deriving DecidableEq

/-- Effect of one operation on the shared state. -/
def execOp (st : ServerState) : Op → ServerState
  | .ingest t line => read_serial_step st t line
  | .clearAlert row => (clear_alert st row).1
  | .markWrong t req => (mark_wrong_jar st t req).1
  | .setStatus t req => (update_jar_status st t req).1

/-- State after a sequence of operations from the initial state. -/
def run (ops : List Op) : ServerState :=
  ops.foldl execOp initState

/-! ## The old application variant (`jar_tracking_old.py`) -/

/-- `latest_data` of the old variant: no threshold fields. -/
structure OldReading where
  dist1 : Option ℚ
  state1 : Option Int
  dist2 : Option ℚ
  state2 : Option Int
deriving DecidableEq

/-- Shared state of the old variant (plus the loop's `prev_state` locals). -/
structure OldState where
  latest : OldReading
  eventLog : List Event
  prev1 : Option Int
  prev2 : Option Int
deriving DecidableEq

/-- Initial state of the old variant. -/
def initOldState : OldState :=
  { latest := { dist1 := none, state1 := none, dist2 := none, state2 := none },
    eventLog := [], prev1 := none, prev2 := none }

/-- A parsed line of the old variant: raw states, never normalized,
no thresholds. -/
structure OldParsed where
  dist1 : ℚ
  state1 : Int
  dist2 : ℚ
  state2 : Int
deriving DecidableEq

/-- Line acceptance of the old variant: strip, discard empty/header
lines, and require *exactly* 6 comma-separated fields, of which only
the first four are parsed (a parse error is caught by the loop's outer
handler and the line is discarded). -/
def parseLineOld (raw : String) : Option OldParsed :=
  if (pyStrip raw.data).isEmpty then none
  else if "Dist1".data.isPrefixOf (pyStrip raw.data) then none
  else if (pySplit ',' (pyStrip raw.data)).length = 6 then
    match pyFloat ((pySplit ',' (pyStrip raw.data)).getD 0 []),
          pyInt ((pySplit ',' (pyStrip raw.data)).getD 1 []),
          pyFloat ((pySplit ',' (pyStrip raw.data)).getD 2 []),
          pyInt ((pySplit ',' (pyStrip raw.data)).getD 3 []) with
    | some d1, some s1, some d2, some s2 => some ⟨d1, s1, d2, s2⟩
    | _, _, _, _ => none
  else none

/-- The guard `prev_state is not None and prev_state != state` of the
old variant's event branch: fires on *every* state change. -/
def fireFlagOld (prev : Option Int) (new : Int) : Bool :=
  match prev with
  | some ps => if ps ≠ new then true else false
  | none => false

/-- One iteration of the old variant's `read_serial` loop: update
`latest_data` with the *raw* states and append a "Change detected"
event on *every* state change of a row. -/
def read_serial_old_step (st : OldState) (t : Nat) (raw : String) : OldState :=
  match parseLineOld raw with
  | none => st
  | some p =>
    let fire1 : Bool := fireFlagOld st.prev1 p.state1
    let fire2 : Bool := fireFlagOld st.prev2 p.state2
    let log1 := if fire1 then
        st.eventLog ++ [⟨t, 1, "Change detected", pyRound1 p.dist1⟩] else st.eventLog
    let log2 := if fire2 then
        log1 ++ [⟨t, 2, "Change detected", pyRound1 p.dist2⟩] else log1
    { latest := { dist1 := some p.dist1, state1 := some p.state1,
                  dist2 := some p.dist2, state2 := some p.state2 },
      eventLog := log2, prev1 := some p.state1, prev2 := some p.state2 }

/-- Whether processing `line` in state `st` fires the event/alert
branch for row `r` (rows other than 1 and 2 never fire). -/
def firesRow (st : ServerState) (line : String) (r : Nat) : Bool :=
  match parseLine line with
  | none => false
  | some p =>
    if r = 1 then fireFlag st.prev1 p.state1
    else if r = 2 then fireFlag st.prev2 p.state2
    else false

/-- Whether any step of an ingest trace fires the event/alert branch
for row `r`, evaluated along the evolving state. -/
def firesAlongRun : ServerState → List (Nat × String) → Nat → Bool
  | _, [], _ => false
  | st, (t, l) :: rest, r =>
    firesRow st l r || firesAlongRun (read_serial_step st t l) rest r

/-- All remembered and published sensor states are normalized booleans
(`none` only before the first reading). -/
def statesOK (st : ServerState) : Prop :=
  (st.prev1 = none ∨ st.prev1 = some 0 ∨ st.prev1 = some 1) ∧
  (st.prev2 = none ∨ st.prev2 = some 0 ∨ st.prev2 = some 1) ∧
  (st.latest.state1 = none ∨ st.latest.state1 = some 0 ∨ st.latest.state1 = some 1) ∧
  (st.latest.state2 = none ∨ st.latest.state2 = some 0 ∨ st.latest.state2 = some 1)

/-- The rows passed to clear-alert calls in a trace. -/
def clearRows (ops : List Op) : List Nat :=
  ops.filterMap fun o => match o with | .clearAlert r => some r | _ => none

/-- `ops` contains an ingest step that fired row `r`, with no clear of
row `r` after it. -/
def Justified (ops : List Op) (r : Nat) : Prop :=
  ∃ l1 t line l2, ops = l1 ++ Op.ingest t line :: l2 ∧
    firesRow (run l1) line r = true ∧ ∀ o ∈ l2, o ≠ Op.clearAlert r

/-- A two-event log used to exhibit the order reversal of the
event-log page. -/
def c3Log : List Event :=
  [⟨0, 1, "Needs checking", 10⟩, ⟨1, 2, "Needs checking", 20⟩]

/-! ## Association-list (Python dict) lemmas -/

theorem dictGet_map_self [DecidableEq κ] (m : List (κ × α)) (k : κ) (v : α)
    (h : m.any (fun p => p.1 = k) = true) :
    dictGet (m.map (fun p => if p.1 = k then (k, v) else p)) k = some v := by
  induction m with
  | nil => simp at h
  | cons q m ih =>
    by_cases hq : q.1 = k
    · simp only [List.map_cons, if_pos hq]
      unfold dictGet
      rw [List.find?_cons_of_pos _ (by simp)]
      rfl
    · have h' : m.any (fun p => p.1 = k) = true := by
        simpa [hq] using h
      simp only [List.map_cons, if_neg hq]
      unfold dictGet
      rw [List.find?_cons_of_neg _ (by simp [hq])]
      exact ih h'

theorem dictGet_map_ne [DecidableEq κ] (m : List (κ × α)) (k k' : κ) (v : α)
    (hk : k' ≠ k) :
    dictGet (m.map (fun p => if p.1 = k then (k, v) else p)) k' = dictGet m k' := by
  induction m with
  | nil => rfl
  | cons q m ih =>
    by_cases hq : q.1 = k
    · simp only [List.map_cons, if_pos hq]
      unfold dictGet
      rw [List.find?_cons_of_neg _ (by simp; exact Ne.symm hk),
          List.find?_cons_of_neg _ (by simp [hq]; exact Ne.symm hk)]
      exact ih
    · simp only [List.map_cons, if_neg hq]
      by_cases hq' : q.1 = k'
      · unfold dictGet
        rw [List.find?_cons_of_pos _ (by simp [hq']),
            List.find?_cons_of_pos _ (by simp [hq'])]
      · unfold dictGet
        rw [List.find?_cons_of_neg _ (by simp [hq']),
            List.find?_cons_of_neg _ (by simp [hq'])]
        exact ih

/-- Python-dict read-after-write: writing key `k` leaves every other
key unchanged and makes `k` read back the written value. -/
theorem dictGet_set [DecidableEq κ] (m : List (κ × α)) (k k' : κ) (v : α) :
    dictGet (dictSet m k v) k' = if k' = k then some v else dictGet m k' := by
  unfold dictSet
  by_cases h : m.any (fun p => p.1 = k) = true
  · rw [if_pos h]
    by_cases hk : k' = k
    · subst hk; rw [if_pos rfl]; exact dictGet_map_self m k' v h
    · rw [if_neg hk]; exact dictGet_map_ne m k k' v hk
  · rw [if_neg h]
    have hnone : m.find? (fun p => p.1 = k) = none := by
      rw [List.find?_eq_none]
      intro x hx hxk
      exact h (List.any_eq_true.mpr ⟨x, hx, hxk⟩)
    by_cases hk : k' = k
    · subst hk
      unfold dictGet
      rw [List.find?_append, hnone]
      simp
    · unfold dictGet
      rw [List.find?_append]
      have hsingle : List.find? (fun p => p.1 = k') [(k, v)] = none := by
        simp; exact Ne.symm hk
      rw [hsingle]
      simp [hk]

/-- Writing key `k` adds at most the key `k` to a Python dict. -/
theorem mem_keys_dictSet [DecidableEq κ] {m : List (κ × α)} {k k' : κ} {v : α}
    (h : k' ∈ (dictSet m k v).map Prod.fst) : k' ∈ m.map Prod.fst ∨ k' = k := by
  unfold dictSet at h
  split at h
  · rw [List.map_map] at h
    rcases List.mem_map.mp h with ⟨p, hp, hpk⟩
    by_cases hq : p.1 = k
    · right
      simpa [hq] using hpk.symm
    · left
      exact List.mem_map.mpr ⟨p, hp, by simpa [hq] using hpk⟩
  · rw [List.map_append] at h
    rcases List.mem_append.mp h with h | h
    · exact Or.inl h
    · right; simpa using h

/-! ## Characterization of one ingest iteration -/

theorem read_serial_step_misplaced (st : ServerState) (t : Nat) (line : String) :
    (read_serial_step st t line).misplaced = st.misplaced := by
  unfold read_serial_step
  cases parseLine line <;> rfl

theorem read_serial_step_jarStatus (st : ServerState) (t : Nat) (line : String) :
    (read_serial_step st t line).jarStatus = st.jarStatus := by
  unfold read_serial_step
  cases parseLine line <;> rfl

/-- The alert of any row after one ingest iteration: set to `True` when
the row fires, untouched otherwise. -/
theorem read_serial_step_alerts (st : ServerState) (t : Nat) (line : String) (r : Nat) :
    dictGet (read_serial_step st t line).alerts r =
      if firesRow st line r then some true else dictGet st.alerts r := by
  unfold read_serial_step firesRow
  cases hp : parseLine line with
  | none => simp
  | some p =>
    simp only
    by_cases h1 : r = 1
    · subst h1
      by_cases hf1 : fireFlag st.prev1 p.state1 = true <;>
        by_cases hf2 : fireFlag st.prev2 p.state2 = true <;>
          simp [hf1, hf2, dictGet_set]
    · by_cases h2 : r = 2
      · subst h2
        by_cases hf1 : fireFlag st.prev1 p.state1 = true <;>
          by_cases hf2 : fireFlag st.prev2 p.state2 = true <;>
            simp [hf1, hf2, dictGet_set, h1]
      · by_cases hf1 : fireFlag st.prev1 p.state1 = true <;>
          by_cases hf2 : fireFlag st.prev2 p.state2 = true <;>
            simp [hf1, hf2, dictGet_set, h1, h2]

/-- The event log after one ingest iteration: the old log followed by
the (up to two) events fired by this reading. -/
theorem read_serial_step_eventLog (st : ServerState) (t : Nat) (line : String) :
    (read_serial_step st t line).eventLog =
      st.eventLog ++
        (match parseLine line with
         | none => []
         | some p =>
           (if fireFlag st.prev1 p.state1 then
              [⟨t, 1, "Needs checking", pyRound1 p.dist1⟩] else [])
           ++ (if fireFlag st.prev2 p.state2 then
              [⟨t, 2, "Needs checking", pyRound1 p.dist2⟩] else [])) := by
  unfold read_serial_step
  cases hp : parseLine line with
  | none => simp
  | some p =>
    simp only
    by_cases hf1 : fireFlag st.prev1 p.state1 = true <;>
      by_cases hf2 : fireFlag st.prev2 p.state2 = true <;> simp [hf1, hf2]

/-- The states produced by the field parser are normalized to 0 / 1. -/
theorem parseFields_states {parts : List (List Char)} {p : Parsed}
    (h : parseFields parts = some p) :
    (p.state1 = 0 ∨ p.state1 = 1) ∧ (p.state2 = 0 ∨ p.state2 = 1) := by
  rcases parts with _ | ⟨a, _ | ⟨b, _ | ⟨c, _ | ⟨d, rest⟩⟩⟩⟩
  · simp [parseFields] at h
  · simp [parseFields] at h
  · simp [parseFields] at h
  · simp [parseFields] at h
  · simp only [parseFields] at h
    rcases hA : pyFloat a with _ | d1 <;> rw [hA] at h
    · simp at h
    rcases hB : pyInt b with _ | s1 <;> rw [hB] at h
    · simp at h
    rcases hC : pyFloat c with _ | d2 <;> rw [hC] at h
    · simp at h
    rcases hD : pyInt d with _ | s2 <;> rw [hD] at h
    · simp at h
    rcases hlo : parseLower rest with _ | lo <;> rw [hlo] at h
    · simp at h
    rcases hup : parseUpper rest with _ | hi <;> rw [hup] at h
    · simp at h
    simp only [Option.some.injEq] at h
    subst h
    constructor <;> · unfold normState; split <;> simp <;> omega

/-- The states produced by line parsing are normalized to 0 / 1. -/
theorem parseLine_states {line : String} {p : Parsed}
    (h : parseLine line = some p) :
    (p.state1 = 0 ∨ p.state1 = 1) ∧ (p.state2 = 0 ∨ p.state2 = 1) := by
  unfold parseLine at h
  split at h
  · exact absurd h (by simp)
  · split at h
    · exact absurd h (by simp)
    · split at h
      · exact absurd h (by simp)
      · exact parseFields_states h

/-! ## Endpoint component lemmas -/

theorem mark_wrong_jar_alerts (st : ServerState) (t : Nat) (req : WrongJarReq) :
    ((mark_wrong_jar st t req).1).alerts = st.alerts := by
  unfold mark_wrong_jar
  split <;> rfl

theorem update_jar_status_alerts (st : ServerState) (t : Nat) (req : UpdateReq) :
    ((update_jar_status st t req).1).alerts = st.alerts := by
  unfold update_jar_status
  split
  · rfl
  · split
    · rfl
    · rcases dictGet row_jars (req.row.getD 0) with _ | jars
      · rfl
      · simp only
        split <;> rfl

theorem mark_wrong_jar_prev (st : ServerState) (t : Nat) (req : WrongJarReq) :
    ((mark_wrong_jar st t req).1).prev1 = st.prev1 ∧
    ((mark_wrong_jar st t req).1).prev2 = st.prev2 ∧
    ((mark_wrong_jar st t req).1).latest = st.latest := by
  unfold mark_wrong_jar
  split <;> exact ⟨rfl, rfl, rfl⟩

theorem update_jar_status_prev (st : ServerState) (t : Nat) (req : UpdateReq) :
    ((update_jar_status st t req).1).prev1 = st.prev1 ∧
    ((update_jar_status st t req).1).prev2 = st.prev2 ∧
    ((update_jar_status st t req).1).latest = st.latest := by
  unfold update_jar_status
  split
  · exact ⟨rfl, rfl, rfl⟩
  · split
    · exact ⟨rfl, rfl, rfl⟩
    · rcases dictGet row_jars (req.row.getD 0) with _ | jars
      · exact ⟨rfl, rfl, rfl⟩
      · simp only
        split <;> exact ⟨rfl, rfl, rfl⟩

theorem mark_wrong_jar_misplaced (st : ServerState) (t : Nat) (req : WrongJarReq) :
    ((mark_wrong_jar st t req).1).misplaced = st.misplaced ∨
    (truthyStr req.jar = true ∧ truthyInt req.found_in = true ∧
     ((mark_wrong_jar st t req).1).misplaced =
       st.misplaced ++ [⟨req.jar.getD "", req.found_in.getD 0,
                         findCorrectRow (req.jar.getD ""), t⟩]) := by
  unfold mark_wrong_jar
  split
  · exact Or.inl rfl
  · rename_i htr
    simp only [Bool.or_eq_true, Bool.not_eq_true', not_or, Bool.not_eq_false] at htr
    exact Or.inr ⟨htr.1, htr.2, rfl⟩

theorem update_jar_status_misplaced (st : ServerState) (t : Nat) (req : UpdateReq) :
    ((update_jar_status st t req).1).misplaced = st.misplaced := by
  unfold update_jar_status
  split
  · rfl
  · split
    · rfl
    · rcases dictGet row_jars (req.row.getD 0) with _ | jars
      · rfl
      · simp only
        split <;> rfl

/-! ## Reachability invariants -/

theorem statesOK_read_serial_step {st : ServerState} (h : statesOK st)
    (t : Nat) (line : String) : statesOK (read_serial_step st t line) := by
  unfold read_serial_step
  cases hp : parseLine line with
  | none => exact h
  | some p =>
    have hs := parseLine_states hp
    refine ⟨?_, ?_, ?_, ?_⟩ <;> simp only <;> tauto

theorem statesOK_execOp {st : ServerState} (h : statesOK st) (op : Op) :
    statesOK (execOp st op) := by
  cases op with
  | ingest t line => exact statesOK_read_serial_step h t line
  | clearAlert r => exact h
  | markWrong t req =>
    obtain ⟨h1, h2, h3⟩ := mark_wrong_jar_prev st t req
    exact ⟨by rw [execOp, h1]; exact h.1, by rw [execOp, h2]; exact h.2.1,
           by rw [execOp, h3]; exact h.2.2.1, by rw [execOp, h3]; exact h.2.2.2⟩
  | setStatus t req =>
    obtain ⟨h1, h2, h3⟩ := update_jar_status_prev st t req
    exact ⟨by rw [execOp, h1]; exact h.1, by rw [execOp, h2]; exact h.2.1,
           by rw [execOp, h3]; exact h.2.2.1, by rw [execOp, h3]; exact h.2.2.2⟩

theorem statesOK_foldl {st : ServerState} (h : statesOK st) (ops : List Op) :
    statesOK (ops.foldl execOp st) := by
  induction ops generalizing st with
  | nil => exact h
  | cons op ops ih => exact ih (statesOK_execOp h op)

/-- Every reachable state has normalized sensor states. -/
theorem statesOK_run (ops : List Op) : statesOK (run ops) :=
  statesOK_foldl (by constructor <;> simp [initState]) ops

/-! ## Alert justification -/

theorem run_append (ops : List Op) (op : Op) :
    run (ops ++ [op]) = execOp (run ops) op := by
  unfold run
  rw [List.foldl_append]
  rfl

theorem Justified.extend {ops : List Op} {r : Nat} (j : Justified ops r) (op : Op)
    (hop : op ≠ Op.clearAlert r) : Justified (ops ++ [op]) r := by
  obtain ⟨l1, t, line, l2, rfl, hf, hnc⟩ := j
  refine ⟨l1, t, line, l2 ++ [op], by simp, hf, ?_⟩
  intro o ho
  rcases List.mem_append.mp ho with h | h
  · exact hnc o h
  · rw [List.mem_singleton] at h; subst h; exact hop

theorem dictGet_init_alerts {r : Nat} :
    dictGet initState.alerts r ≠ some true := by
  intro h
  by_cases h1 : (1 : Nat) = r
  · subst h1
    simp [initState, dictGet, List.find?] at h
  · by_cases h2 : (2 : Nat) = r
    · subst h2
      simp [initState, dictGet, List.find?, h1] at h
    · simp [initState, dictGet, List.find?, h1, h2] at h

/-- In any reachable state, a row's alert is `True` only because an
ingest step fired that row (a 0→1 transition, given `statesOK`) and no
clear-alert for the row happened afterwards. -/
theorem alerts_true_justified (ops : List Op) (r : Nat)
    (h : dictGet (run ops).alerts r = some true) : Justified ops r := by
  induction ops using List.reverseRecOn with
  | nil => exact absurd h dictGet_init_alerts
  | append_singleton l op ih =>
    rw [run_append] at h
    cases op with
    | ingest t line =>
      rw [execOp, read_serial_step_alerts] at h
      by_cases hf : firesRow (run l) line r = true
      · exact ⟨l, t, line, [], rfl, hf, by simp⟩
      · rw [if_neg hf] at h
        exact (ih h).extend _ (by simp)
    | clearAlert r2 =>
      rw [execOp] at h
      rw [show ((clear_alert (run l) r2).1).alerts = dictSet (run l).alerts r2 false
            from rfl] at h
      rw [dictGet_set] at h
      by_cases hr : r = r2
      · rw [if_pos hr] at h
        exact absurd h (by simp)
      · rw [if_neg hr] at h
        refine (ih h).extend _ ?_
        intro he
        injection he with hrr
        exact hr hrr.symm
    | markWrong t req =>
      rw [execOp, mark_wrong_jar_alerts] at h
      exact (ih h).extend _ (by simp)
    | setStatus t req =>
      rw [execOp, update_jar_status_alerts] at h
      exact (ih h).extend _ (by simp)

/-- Adding a key conditionally via `dictSet … true` adds at most that key. -/
theorem keys_condSet {m : List (Nat × Bool)} {b : Bool} {i k : Nat}
    (h : k ∈ (if b = true then dictSet m i true else m).map Prod.fst) :
    k ∈ m.map Prod.fst ∨ k = i := by
  split at h
  · exact mem_keys_dictSet h
  · exact Or.inl h

theorem read_serial_step_keys {st : ServerState} {t : Nat} {line : String} {k : Nat}
    (h : k ∈ (read_serial_step st t line).alerts.map Prod.fst) :
    k ∈ st.alerts.map Prod.fst ∨ k = 1 ∨ k = 2 := by
  unfold read_serial_step at h
  cases hp : parseLine line <;> rw [hp] at h
  · exact Or.inl h
  · simp only at h
    rcases keys_condSet h with h' | h'
    · rcases keys_condSet h' with h'' | h''
      · exact Or.inl h''
      · exact Or.inr (Or.inl h'')
    · exact Or.inr (Or.inr h')

/-- In any reachable state, the keys of the alerts mapping are the two
catalog rows plus whatever rows were passed to clear-alert calls. -/
theorem alerts_keys_run (ops : List Op) :
    ∀ k ∈ (run ops).alerts.map Prod.fst, k = 1 ∨ k = 2 ∨ k ∈ clearRows ops := by
  induction ops using List.reverseRecOn with
  | nil =>
    intro k hk
    simp [run, initState] at hk
    rcases hk with h | h
    · exact Or.inl h
    · exact Or.inr (Or.inl h)
  | append_singleton l op ih =>
    intro k hk
    rw [run_append] at hk
    have hext : k ∈ (run l).alerts.map Prod.fst →
        k = 1 ∨ k = 2 ∨ k ∈ clearRows (l ++ [op]) := by
      intro hm
      rcases ih k hm with h | h | h
      · exact Or.inl h
      · exact Or.inr (Or.inl h)
      · refine Or.inr (Or.inr ?_)
        rw [clearRows, List.filterMap_append]
        exact List.mem_append.mpr (Or.inl h)
    cases op with
    | ingest t line =>
      rcases read_serial_step_keys hk with h | h | h
      · exact hext h
      · exact Or.inl h
      · exact Or.inr (Or.inl h)
    | clearAlert r2 =>
      rw [execOp] at hk
      rcases mem_keys_dictSet hk with h | h
      · exact hext h
      · refine Or.inr (Or.inr ?_)
        rw [clearRows, List.filterMap_append]
        refine List.mem_append.mpr (Or.inr ?_)
        simp [h]
    | markWrong t req =>
      rw [execOp, mark_wrong_jar_alerts] at hk
      exact hext hk
    | setStatus t req =>
      rw [execOp, update_jar_status_alerts] at hk
      exact hext hk

/-- In any reachable state, every misplaced entry's `found_in` is the
truthy (hence nonzero) value supplied by the caller. -/
theorem misplaced_found_in_run (ops : List Op) :
    ∀ e ∈ (run ops).misplaced, e.found_in ≠ 0 := by
  induction ops using List.reverseRecOn with
  | nil => intro e he; simp [run, initState] at he
  | append_singleton l op ih =>
    intro e he
    rw [run_append] at he
    cases op with
    | ingest t line =>
      rw [execOp, read_serial_step_misplaced] at he
      exact ih e he
    | clearAlert r2 =>
      rw [execOp] at he
      exact ih e he
    | markWrong t req =>
      rw [execOp] at he
      rcases mark_wrong_jar_misplaced (run l) t req with hm | ⟨hj, hf, hm⟩
      · rw [hm] at he; exact ih e he
      · rw [hm] at he
        rcases List.mem_append.mp he with h | h
        · exact ih e h
        · rw [List.mem_singleton] at h
          subst h
          cases hfi : req.found_in with
          | none => rw [hfi] at hf; exact absurd hf (by simp [truthyInt])
          | some n =>
            rw [hfi] at hf
            simp only [truthyInt, decide_eq_true_eq] at hf
            simpa [hfi] using hf
    | setStatus t req =>
      rw [execOp, update_jar_status_misplaced] at he
      exact ih e he

/-! ## Parse-level helper lemmas -/

/-- A failed parse of any required or present optional field makes the
whole line parse fail. -/
theorem parseFields_none {parts : List (List Char)}
    (h : pyFloat (parts.getD 0 []) = none ∨ pyInt (parts.getD 1 []) = none
       ∨ pyFloat (parts.getD 2 []) = none ∨ pyInt (parts.getD 3 []) = none
       ∨ parseLower (parts.drop 4) = none ∨ parseUpper (parts.drop 4) = none) :
    parseFields parts = none := by
  rcases parts with _ | ⟨a, _ | ⟨b, _ | ⟨c, _ | ⟨d, rest⟩⟩⟩⟩
  · rfl
  · rfl
  · rfl
  · rfl
  · simp only [List.getD_cons_zero, List.getD_cons_succ, List.drop_succ_cons,
      List.drop_zero] at h
    rcases hA : pyFloat a with _ | d1 <;> rcases hB : pyInt b with _ | s1 <;>
      rcases hC : pyFloat c with _ | d2 <;> rcases hD : pyInt d with _ | s2 <;>
        rcases hlo : parseLower rest with _ | lo <;>
          rcases hup : parseUpper rest with _ | hi <;>
            simp [parseFields, hA, hB, hC, hD, hlo, hup] at h ⊢

/-- Reduce `parseLine` to `parseFields` once the line-level guards pass. -/
theorem parseLine_of_fields {raw : String} {parts : List (List Char)}
    (h1 : (pyStrip raw.data).isEmpty = false)
    (h2 : "Dist1".data.isPrefixOf (pyStrip raw.data) = false)
    (h3 : pySplit ',' (pyStrip raw.data) = parts)
    (h4 : ¬ parts.length < 4) :
    parseLine raw = parseFields parts := by
  unfold parseLine
  rw [h3, if_neg (by simp [h1]), if_neg (by simp [h2]), if_neg h4]

theorem parseFields_four {a b c d : List Char} {d1 d2 : ℚ} {s1 s2 : Int}
    (hA : pyFloat a = some d1) (hB : pyInt b = some s1)
    (hC : pyFloat c = some d2) (hD : pyInt d = some s2) :
    parseFields [a, b, c, d] = some ⟨d1, normState s1, d2, normState s2, 30, 40⟩ := by
  simp [parseFields, hA, hB, hC, hD, parseLower, parseUpper]

theorem parseFields_six {a b c d e f : List Char} {d1 d2 lo hi : ℚ} {s1 s2 : Int}
    (hA : pyFloat a = some d1) (hB : pyInt b = some s1)
    (hC : pyFloat c = some d2) (hD : pyInt d = some s2)
    (hE : pyFloat e = some lo) (hF : pyFloat f = some hi) :
    parseFields [a, b, c, d, e, f] = some ⟨d1, normState s1, d2, normState s2, lo, hi⟩ := by
  simp [parseFields, hA, hB, hC, hD, hE, hF, parseLower, parseUpper]

theorem parseLineOld_six {raw : String} {a b c d e f : List Char} {d1 d2 : ℚ} {s1 s2 : Int}
    (h1 : (pyStrip raw.data).isEmpty = false)
    (h2 : "Dist1".data.isPrefixOf (pyStrip raw.data) = false)
    (h3 : pySplit ',' (pyStrip raw.data) = [a, b, c, d, e, f])
    (hA : pyFloat a = some d1) (hB : pyInt b = some s1)
    (hC : pyFloat c = some d2) (hD : pyInt d = some s2) :
    parseLineOld raw = some ⟨d1, s1, d2, s2⟩ := by
  unfold parseLineOld
  rw [h3, if_neg (by simp [h1]), if_neg (by simp [h2]), if_pos (by simp)]
  simp [hA, hB, hC, hD]

/-! ## C4 -/

/-- C4: an input line that is malformed — empty after stripping, a
header line starting with "Dist1", fewer than 4 comma-separated fields,
or any required (or present optional) field failing numeric parsing —
leaves the entire server state (latest Reading, event log, alerts, and
everything else) unchanged; as a total function, the modelled iteration
also raises no exception. -/
theorem C4_malformed_line_is_discarded (st : ServerState) (t : Nat) (line : String)
    (h : (pyStrip line.data).isEmpty = true
       ∨ "Dist1".data.isPrefixOf (pyStrip line.data) = true
       ∨ (pySplit ',' (pyStrip line.data)).length < 4
       ∨ pyFloat ((pySplit ',' (pyStrip line.data)).getD 0 []) = none
       ∨ pyInt ((pySplit ',' (pyStrip line.data)).getD 1 []) = none
       ∨ pyFloat ((pySplit ',' (pyStrip line.data)).getD 2 []) = none
       ∨ pyInt ((pySplit ',' (pyStrip line.data)).getD 3 []) = none
       ∨ parseLower ((pySplit ',' (pyStrip line.data)).drop 4) = none
       ∨ parseUpper ((pySplit ',' (pyStrip line.data)).drop 4) = none) :
    read_serial_step st t line = st := by
  have hp : parseLine line = none := by
    unfold parseLine
    by_cases h1 : (pyStrip line.data).isEmpty = true
    · rw [if_pos h1]
    · rw [if_neg h1]
      by_cases h2 : "Dist1".data.isPrefixOf (pyStrip line.data) = true
      · rw [if_pos h2]
      · rw [if_neg h2]
        by_cases h3 : (pySplit ',' (pyStrip line.data)).length < 4
        · rw [if_pos h3]
        · rw [if_neg h3]
          apply parseFields_none
          rcases h with h | h | h | h
          · exact absurd h h1
          · exact absurd h h2
          · exact absurd h h3
          · exact h
  unfold read_serial_step
  rw [hp]

/-- Witness for C4: the truncated line `"1,2"` (2 fields) and the
header line leave the initial state untouched. -/
theorem C4_witness :
    read_serial_step initState 0 "1,2" = initState ∧
    read_serial_step initState 1 "Dist1,State1,Dist2,State2" = initState :=
  ⟨C4_malformed_line_is_discarded initState 0 "1,2"
      (Or.inr (Or.inr (Or.inl (by with_unfolding_all decide)))),
   C4_malformed_line_is_discarded initState 1 "Dist1,State1,Dist2,State2"
      (Or.inr (Or.inl (by with_unfolding_all decide)))⟩

/-! ## C8 -/

/-- C8: on a well-formed line, a raw state value strictly greater than
zero is stored as state 1 and any other raw value as state 0, and when
the 5th and 6th fields are absent the stored thresholds default to 30.0
and 40.0. -/
theorem C8_normalization_and_defaults (raw : String) (a b c d : List Char)
    (d1 d2 : ℚ) (s1 s2 : Int) (st : ServerState) (t : Nat)
    (h1 : (pyStrip raw.data).isEmpty = false)
    (h2 : "Dist1".data.isPrefixOf (pyStrip raw.data) = false)
    (h3 : pySplit ',' (pyStrip raw.data) = [a, b, c, d])
    (hA : pyFloat a = some d1) (hB : pyInt b = some s1)
    (hC : pyFloat c = some d2) (hD : pyInt d = some s2) :
    (read_serial_step st t raw).latest.state1 = some (if 0 < s1 then 1 else 0)
    ∧ (read_serial_step st t raw).latest.state2 = some (if 0 < s2 then 1 else 0)
    ∧ (read_serial_step st t raw).latest.lower = 30
    ∧ (read_serial_step st t raw).latest.upper = 40 := by
  have hp : parseLine raw = some ⟨d1, normState s1, d2, normState s2, 30, 40⟩ := by
    rw [parseLine_of_fields h1 h2 h3 (by simp)]
    exact parseFields_four hA hB hC hD
  unfold read_serial_step
  rw [hp]
  exact ⟨rfl, rfl, rfl, rfl⟩

/-- Witness for C8: the line `"20.5,50,33.25,0"` — raw state 50
normalizes to 1, raw state 0 stays 0, thresholds default to 30 / 40. -/
theorem C8_witness :
    (read_serial_step initState 0 "20.5,50,33.25,0").latest.state1 =
      some (if 0 < (50 : Int) then 1 else 0)
    ∧ (read_serial_step initState 0 "20.5,50,33.25,0").latest.state2 =
      some (if 0 < (0 : Int) then 1 else 0)
    ∧ (read_serial_step initState 0 "20.5,50,33.25,0").latest.lower = 30
    ∧ (read_serial_step initState 0 "20.5,50,33.25,0").latest.upper = 40 :=
  C8_normalization_and_defaults "20.5,50,33.25,0"
    "20.5".data "50".data "33.25".data "0".data
    (mkRat 41 2) (mkRat 133 4) 50 0 initState 0
    (by with_unfolding_all decide) (by with_unfolding_all decide)
    (by with_unfolding_all decide) (by with_unfolding_all decide)
    (by with_unfolding_all decide) (by with_unfolding_all decide)
    (by with_unfolding_all decide)

/-! ## C1 -/

/-- Over normalized states, the event guard fires exactly on a 0→1
transition (never without a previous state). -/
theorem fireFlag_iff {prev : Option Int} {new : Int}
    (hprev : prev = none ∨ prev = some 0 ∨ prev = some 1)
    (hnew : new = 0 ∨ new = 1) :
    fireFlag prev new = true ↔ (prev = some 0 ∧ new = 1) := by
  rcases hprev with rfl | rfl | rfl <;> rcases hnew with rfl | rfl <;>
    simp [fireFlag]

/-- The countP form of the append of an optional singleton. -/
theorem countP_if_singleton (b : Bool) (ev : Event) (p : Event → Bool) :
    ((if b = true then [ev] else []) : List Event).countP p
      = if b = true then (if p ev then 1 else 0) else 0 := by
  cases b <;> simp [List.countP_cons]

/-- C1: an event is appended for a row, and that row's alert set to
true, exactly when the previously remembered state of the row is 0 and
the new state is 1 (in particular never on a 1→0 transition and never
on the first reading, when no previous state exists); and on the
scenario with row-1 states 0,0,1,1,0 the run emits exactly the one
event at the 0→1 step. -/
theorem C1_event_iff_rising_edge :
    (∀ (st : ServerState) (t : Nat) (line : String) (p : Parsed),
      parseLine line = some p →
      (st.prev1 = none ∨ st.prev1 = some 0 ∨ st.prev1 = some 1) →
      (st.prev2 = none ∨ st.prev2 = some 0 ∨ st.prev2 = some 1) →
      ((read_serial_step st t line).eventLog.countP (fun e => e.row == 1)
         = st.eventLog.countP (fun e => e.row == 1)
           + (if st.prev1 = some 0 ∧ p.state1 = 1 then 1 else 0))
      ∧ ((read_serial_step st t line).eventLog.countP (fun e => e.row == 2)
         = st.eventLog.countP (fun e => e.row == 2)
           + (if st.prev2 = some 0 ∧ p.state2 = 1 then 1 else 0))
      ∧ (dictGet (read_serial_step st t line).alerts 1
           = if st.prev1 = some 0 ∧ p.state1 = 1 then some true
             else dictGet st.alerts 1)
      ∧ (dictGet (read_serial_step st t line).alerts 2
           = if st.prev2 = some 0 ∧ p.state2 = 1 then some true
             else dictGet st.alerts 2))
    ∧ (runIngest initState
        [(0, "50,0,99,0"), (1, "50,0,99,0"), (2, "10,1,99,0"),
         (3, "10,1,99,0"), (4, "50,0,99,0")]).eventLog
        = [⟨2, 1, "Needs checking", 10⟩]
    ∧ (runIngest initState
        [(0, "50,0,99,0"), (1, "50,0,99,0"), (2, "10,1,99,0"),
         (3, "10,1,99,0"), (4, "50,0,99,0")]).alerts = [(1, true), (2, false)] := by
  refine ⟨?_, by with_unfolding_all decide, by with_unfolding_all decide⟩
  intro st t line p hp hprev1 hprev2
  have hstates := parseLine_states hp
  have hf1 := fireFlag_iff hprev1 hstates.1
  have hf2 := fireFlag_iff hprev2 hstates.2
  have hlog := read_serial_step_eventLog st t line
  rw [hp] at hlog
  have hcount : ∀ q : Event → Bool,
      (read_serial_step st t line).eventLog.countP q
        = st.eventLog.countP q
          + ((if fireFlag st.prev1 p.state1 = true
                then [(⟨t, 1, "Needs checking", pyRound1 p.dist1⟩ : Event)] else []).countP q
             + (if fireFlag st.prev2 p.state2 = true
                then [(⟨t, 2, "Needs checking", pyRound1 p.dist2⟩ : Event)] else []).countP q) := by
    intro q
    rw [hlog, List.countP_append, List.countP_append]
  have halerts1 := read_serial_step_alerts st t line 1
  have halerts2 := read_serial_step_alerts st t line 2
  have hfr1 : firesRow st line 1 = fireFlag st.prev1 p.state1 := by
    unfold firesRow; rw [hp]; simp
  have hfr2 : firesRow st line 2 = fireFlag st.prev2 p.state2 := by
    unfold firesRow; rw [hp]; simp
  refine ⟨?_, ?_, ?_, ?_⟩
  · rw [hcount]
    by_cases h1 : st.prev1 = some 0 ∧ p.state1 = 1
    · rw [if_pos h1]
      rw [hf1.mpr h1]
      by_cases h2 : fireFlag st.prev2 p.state2 = true <;>
        simp [h2, List.countP_cons]
    · rw [if_neg h1]
      have : fireFlag st.prev1 p.state1 = false :=
        Bool.not_eq_true _ ▸ (fun hh => h1 (hf1.mp hh))
      rw [this]
      by_cases h2 : fireFlag st.prev2 p.state2 = true <;>
        simp [h2, List.countP_cons]
  · rw [hcount]
    by_cases h2 : st.prev2 = some 0 ∧ p.state2 = 1
    · rw [if_pos h2]
      rw [hf2.mpr h2]
      by_cases h1 : fireFlag st.prev1 p.state1 = true <;>
        simp [h1, List.countP_cons]
    · rw [if_neg h2]
      have : fireFlag st.prev2 p.state2 = false :=
        Bool.not_eq_true _ ▸ (fun hh => h2 (hf2.mp hh))
      rw [this]
      by_cases h1 : fireFlag st.prev1 p.state1 = true <;>
        simp [h1, List.countP_cons]
  · rw [halerts1, hfr1]
    by_cases h1 : st.prev1 = some 0 ∧ p.state1 = 1
    · rw [if_pos h1, if_pos (hf1.mpr h1)]
    · rw [if_neg h1, if_neg (fun hh => h1 (hf1.mp hh))]
  · rw [halerts2, hfr2]
    by_cases h2 : st.prev2 = some 0 ∧ p.state2 = 1
    · rw [if_pos h2, if_pos (hf2.mpr h2)]
    · rw [if_neg h2, if_neg (fun hh => h2 (hf2.mp hh))]

/-- Witness for C1: the first reading of a run (no previous state)
appends no event for row 1. -/
theorem C1_witness :
    (read_serial_step initState 0 "50,0,99,0").eventLog.countP (fun e => e.row == 1)
      = initState.eventLog.countP (fun e => e.row == 1)
        + (if initState.prev1 = some 0 ∧ (Parsed.mk 50 0 99 0 30 40).state1 = 1
           then 1 else 0) :=
  (C1_event_iff_rising_edge.1 initState 0 "50,0,99,0" (Parsed.mk 50 0 99 0 30 40)
    (by with_unfolding_all decide) (Or.inl rfl) (Or.inl rfl)).1

/-! ## C2 -/

/-- C2: the alert is latched — clearing sets it false regardless of the
current sensor state; no sensor reading ever turns an alert off; and
after being false it stays false across any ingest trace containing no
0→1 firing step for that row. -/
theorem C2_alert_latched (st : ServerState) (row r t : Nat) (line : String)
    (tr : List (Nat × String)) :
    (dictGet ((clear_alert st row).1).alerts row = some false)
    ∧ (dictGet st.alerts r = some true →
        dictGet (read_serial_step st t line).alerts r = some true)
    ∧ (dictGet st.alerts r = some false → firesAlongRun st tr r = false →
        dictGet (runIngest st tr).alerts r = some false) := by
  refine ⟨?_, ?_, ?_⟩
  · rw [show ((clear_alert st row).1).alerts = dictSet st.alerts row false from rfl,
        dictGet_set, if_pos rfl]
  · intro h
    rw [read_serial_step_alerts]
    split
    · rfl
    · exact h
  · intro hfalse hnofire
    induction tr generalizing st with
    | nil => exact hfalse
    | cons p rest ih =>
      rcases p with ⟨t', l'⟩
      rw [firesAlongRun, Bool.or_eq_false_iff] at hnofire
      have hstep : dictGet (read_serial_step st t' l').alerts r = some false := by
        rw [read_serial_step_alerts, if_neg (by rw [hnofire.1]; simp)]
        exact hfalse
      show dictGet (runIngest (read_serial_step st t' l') rest).alerts r = some false
      exact ih (read_serial_step st t' l') hstep hnofire.2

/-- Witness for C2: after clearing row 1 in the initial state, a trace
of steady-state readings (one 1→0 transition included) leaves the
alert false. -/
theorem C2_witness :
    dictGet ((clear_alert initState 1).1).alerts 1 = some false
    ∧ (dictGet initState.alerts 1 = some true →
        dictGet (read_serial_step initState 0 "50,0,99,0").alerts 1 = some true)
    ∧ dictGet
        (runIngest initState [(0, "10,1,99,0"), (1, "50,0,99,0"), (2, "50,0,99,0")]).alerts
        1 = some false := by
  refine ⟨(C2_alert_latched initState 1 1 0 "50,0,99,0" []).1,
          (C2_alert_latched initState 1 1 0 "50,0,99,0" []).2.1,
          (C2_alert_latched initState 1 1 0 "50,0,99,0"
            [(0, "10,1,99,0"), (1, "50,0,99,0"), (2, "50,0,99,0")]).2.2
            (by with_unfolding_all decide) (by with_unfolding_all decide)⟩

/-! ## C3 -/

/-- Counterexample for C3 as stated: the sequence of events displayed
by the `/event_log` page is *not* in chronological insertion order — on
a two-event log it is not even a sublist of the log (it is reversed,
newest first). -/
theorem C3_counterexample : ¬ (event_log_page c3Log).Sublist c3Log := by
  intro h
  have hlen : (event_log_page c3Log).length = c3Log.length := by
    with_unfolding_all decide
  have heq : event_log_page c3Log = c3Log := h.eq_of_length hlen
  exact absurd heq (by with_unfolding_all decide)

/-- C3 (amended): `/log` returns at most 50 events in chronological
insertion order (a suffix of the log), and the `/event_log` page shows
at most 100 events but in reverse chronological order: the reverse of
its displayed sequence is in insertion order. -/
theorem C3_caps_and_order (log : List Event) :
    (get_log log).length ≤ 50
    ∧ (get_log log).Sublist log
    ∧ (event_log_page log).length ≤ 100
    ∧ ((event_log_page log).reverse).Sublist log := by
  refine ⟨?_, ?_, ?_, ?_⟩
  · unfold get_log
    rw [List.length_drop]
    omega
  · exact List.drop_sublist _ _
  · unfold event_log_page
    rw [List.length_reverse]
    split
    · simp
    · rw [List.length_drop]; omega
  · unfold event_log_page
    rw [List.reverse_reverse]
    split
    · exact List.nil_sublist _
    · exact List.drop_sublist _ _

/-! ## C5 -/

/-- The catalog rows are disjoint, so the first-match search returns
the row of any jar that occurs in some row's list. -/
theorem findCorrectRow_mem {jar : String} {r : Nat} {js : List String}
    (hmem : (r, js) ∈ row_jars) (hj : jar ∈ js) : findCorrectRow jar = some r := by
  rcases List.mem_pair.mp hmem with h | h <;>
    · injection h with hr hjs
      subst hr
      subst hjs
      simp only [List.mem_cons, List.mem_singleton, List.not_mem_nil, or_false] at hj
      rcases hj with rfl | rfl | rfl | rfl | rfl | rfl | rfl <;>
        with_unfolding_all decide

/-- A jar in no row's list has no catalog row. -/
theorem findCorrectRow_not_mem {jar : String}
    (h : ∀ r js, (r, js) ∈ row_jars → jar ∉ js) : findCorrectRow jar = none := by
  unfold findCorrectRow
  rw [List.find?_eq_none.mpr ?_]
  · rfl
  · intro p hp hjar
    exact h p.1 p.2 hp (of_decide_eq_true hjar)

/-- C5: a misplaced-jar report with a nonempty jar id and truthy
found_in answers with the jar's catalog row when the id occurs in the
catalog, and with no correct row together with the not-found message
when it does not. -/
theorem C5_correct_row_lookup (st : ServerState) (t : Nat) (jar : String) (fIn : Int)
    (hjar : jar ≠ "") (hfin : fIn ≠ 0) :
    (∀ r js, (r, js) ∈ row_jars → jar ∈ js →
       (mark_wrong_jar st t ⟨some jar, some fIn⟩).2 =
         .ok ("Jar " ++ jar ++ " belongs in Row " ++ toString r) (some r))
    ∧ ((∀ r js, (r, js) ∈ row_jars → jar ∉ js) →
       (mark_wrong_jar st t ⟨some jar, some fIn⟩).2 =
         .ok "Jar not found in database." none) := by
  have hne : jar.isEmpty = false := by
    rw [Bool.eq_false_iff]
    intro he
    exact hjar ((String.isEmpty_iff jar).mp he)
  have htr : (!truthyStr (some jar) || !truthyInt (some fIn)) = false := by
    simp [truthyStr, truthyInt, hfin, hne]
  constructor
  · intro r js hmem hj
    unfold mark_wrong_jar
    rw [if_neg (by simp [htr])]
    simp only [Option.getD_some]
    rw [findCorrectRow_mem hmem hj]
    rfl
  · intro hno
    unfold mark_wrong_jar
    rw [if_neg (by simp [htr])]
    simp only [Option.getD_some]
    rw [findCorrectRow_not_mem hno]
    rfl

/-- Witness for C5: jar "R0244" is in row 2's list and is reported as
belonging in Row 2; jar "XX999" is in no list and is reported not
found with a null correct row. -/
theorem C5_witness :
    (mark_wrong_jar initState 0 ⟨some "R0244", some 1⟩).2 =
      .ok ("Jar " ++ "R0244" ++ " belongs in Row " ++ toString 2) (some 2)
    ∧ (mark_wrong_jar initState 0 ⟨some "XX999", some 1⟩).2 =
      .ok "Jar not found in database." none :=
  ⟨(C5_correct_row_lookup initState 0 "R0244" 1 (by decide) (by decide)).1
      2 ["R0244", "R0245", "R0246", "R0247", "R47376", "R47346", "R47347"]
      (by with_unfolding_all decide) (by with_unfolding_all decide),
   (C5_correct_row_lookup initState 0 "XX999" 1 (by decide) (by decide)).2
      (by
        intro r js hmem hj
        rcases List.mem_pair.mp hmem with h | h <;>
          · injection h with hr hjs
            subst hjs
            revert hj
            with_unfolding_all decide)⟩

/-! ## C10 -/

/-- C10: any misplaced-jar report with truthy jar and found_in fields
appends the entry `{jar, found_in, correct_row, time}` and answers
success, even when the jar is not in the catalog; the not-found case is
signalled only by a null `correct_row` (and the message derived from
it), never by a failure status. -/
theorem C10_report_always_succeeds (st : ServerState) (t : Nat) (req : WrongJarReq)
    (hjar : truthyStr req.jar = true) (hfin : truthyInt req.found_in = true) :
    ((mark_wrong_jar st t req).1).misplaced =
      st.misplaced ++ [⟨req.jar.getD "", req.found_in.getD 0,
                        findCorrectRow (req.jar.getD ""), t⟩]
    ∧ ((mark_wrong_jar st t req).2).success = true
    ∧ (∃ msg, (mark_wrong_jar st t req).2 =
        .ok msg (findCorrectRow (req.jar.getD "")))
    ∧ (findCorrectRow (req.jar.getD "") = none ↔
        ∀ r js, (r, js) ∈ row_jars → req.jar.getD "" ∉ js) := by
  have hcond : (!truthyStr req.jar || !truthyInt req.found_in) = false := by
    simp [hjar, hfin]
  refine ⟨?_, ?_, ?_, ?_⟩
  · unfold mark_wrong_jar
    rw [if_neg (by simp [hcond])]
  · unfold mark_wrong_jar
    rw [if_neg (by simp [hcond])]
    rfl
  · refine ⟨wrongJarMessage (req.jar.getD "") (findCorrectRow (req.jar.getD "")), ?_⟩
    unfold mark_wrong_jar
    rw [if_neg (by simp [hcond])]
  · constructor
    · intro hnone r js hmem hj
      rw [findCorrectRow_mem hmem hj] at hnone
      exact Option.noConfusion hnone
    · exact findCorrectRow_not_mem

/-- Witness for C10: reporting the unknown jar "ZZZ" found in row 3
(not even a catalog row) appends the entry and succeeds, with null
correct row. -/
theorem C10_witness :
    ((mark_wrong_jar initState 7 ⟨some "ZZZ", some 3⟩).1).misplaced =
      initState.misplaced ++ [⟨"ZZZ", 3, findCorrectRow "ZZZ", 7⟩]
    ∧ ((mark_wrong_jar initState 7 ⟨some "ZZZ", some 3⟩).2).success = true :=
  ⟨(C10_report_always_succeeds initState 7 ⟨some "ZZZ", some 3⟩
      (by decide) (by decide)).1,
   (C10_report_always_succeeds initState 7 ⟨some "ZZZ", some 3⟩
      (by decide) (by decide)).2.1⟩

/-! ## C6 -/

/-- Counterexample for C6 as stated: clearing the alert of row 3 — a
row not in the catalog — is *not* rejected: the response reports
success and the shared alerts mapping changes (it gains the key 3). -/
theorem C6_counterexample :
    (clear_alert initState 3).2.success = true
    ∧ (clear_alert initState 3).1 ≠ initState
    ∧ dictGet ((clear_alert initState 3).1).alerts 3 = some false := by
  with_unfolding_all decide

/-- C6 (amended): the misplaced-jar report and the jar-status set/get
endpoints return structured failures (success false with an error
message, or a 404) and leave the shared state unchanged on missing or
falsy fields, an invalid status value, a row outside the catalog, or a
jar not in the given row; the clear-alert endpoint, however, performs
no validation: it accepts any row, creates or overwrites that alert
entry with false, and reports success. -/
theorem C6_invalid_input_handling (st : ServerState) (t : Nat) :
    (∀ req : UpdateReq,
      (truthyStr req.jar_id = false ∨ truthyStr req.status = false
        ∨ truthyNat req.row = false) →
      update_jar_status st t req = (st, .failure "Missing required data" 400))
    ∧ (∀ req : UpdateReq,
      truthyStr req.jar_id = true → truthyStr req.status = true →
      truthyNat req.row = true →
      req.status.getD "" ≠ "present" → req.status.getD "" ≠ "missing" →
      update_jar_status st t req = (st, .failure "Invalid status" 400))
    ∧ (∀ req : UpdateReq,
      truthyStr req.jar_id = true → truthyStr req.status = true →
      truthyNat req.row = true →
      (req.status.getD "" = "present" ∨ req.status.getD "" = "missing") →
      dictGet row_jars (req.row.getD 0) = none →
      update_jar_status st t req = (st, .failure "Jar not found in specified row" 400))
    ∧ (∀ (req : UpdateReq) (jars : List String),
      truthyStr req.jar_id = true → truthyStr req.status = true →
      truthyNat req.row = true →
      (req.status.getD "" = "present" ∨ req.status.getD "" = "missing") →
      dictGet row_jars (req.row.getD 0) = some jars → req.jar_id.getD "" ∉ jars →
      update_jar_status st t req = (st, .failure "Jar not found in specified row" 400))
    ∧ (∀ row : Nat, dictGet row_jars row = none →
      get_jar_status st row = .failure "Invalid row" 404)
    ∧ (∀ req : WrongJarReq,
      (truthyStr req.jar = false ∨ truthyInt req.found_in = false) →
      mark_wrong_jar st t req = (st, .failure "Missing data" 400))
    ∧ (∀ row : Nat,
      (clear_alert st row).2.success = true
      ∧ ((clear_alert st row).1).alerts = dictSet st.alerts row false) := by
  refine ⟨?_, ?_, ?_, ?_, ?_, ?_, ?_⟩
  · intro req h
    unfold update_jar_status
    rw [if_pos ?_]
    rcases h with h | h | h <;> simp [h]
  · intro req h1 h2 h3 hp hm
    unfold update_jar_status
    rw [if_neg (by simp [h1, h2, h3]), if_pos ⟨hp, hm⟩]
  · intro req h1 h2 h3 hst hrow
    unfold update_jar_status
    rw [if_neg (by simp [h1, h2, h3]),
        if_neg (by rcases hst with h | h <;> simp [h])]
    rw [hrow]
  · intro req jars h1 h2 h3 hst hrow hjar
    unfold update_jar_status
    rw [if_neg (by simp [h1, h2, h3]),
        if_neg (by rcases hst with h | h <;> simp [h])]
    rw [hrow]
    simp only
    rw [if_pos hjar]
  · intro row hrow
    unfold get_jar_status
    rw [hrow]
  · intro req h
    unfold mark_wrong_jar
    rw [if_pos ?_]
    rcases h with h | h <;> simp [h]
  · intro row
    exact ⟨rfl, rfl⟩

/-- Witness for C6: an update with all fields missing fails with 400,
an unknown row's status query 404s, a misplaced report with no fields
fails with 400, and clearing the unknown row 9 succeeds. -/
theorem C6_witness :
    update_jar_status initState 0 ⟨none, none, none⟩ =
      (initState, .failure "Missing required data" 400)
    ∧ get_jar_status initState 9 = .failure "Invalid row" 404
    ∧ mark_wrong_jar initState 0 ⟨none, none⟩ =
      (initState, .failure "Missing data" 400)
    ∧ (clear_alert initState 9).2.success = true :=
  ⟨(C6_invalid_input_handling initState 0).1 ⟨none, none, none⟩ (Or.inl rfl),
   (C6_invalid_input_handling initState 0).2.2.2.2.1 9 (by with_unfolding_all decide),
   (C6_invalid_input_handling initState 0).2.2.2.2.2.1 ⟨none, none⟩ (Or.inl rfl),
   ((C6_invalid_input_handling initState 0).2.2.2.2.2.2 9).1⟩

/-! ## C7 -/

/-- Counterexample for C7 as stated: it is not true that in every
reachable state the row keys of the alerts mapping lie in {1,2} — one
clear-alert call on row 3 produces a reachable state whose alerts
mapping carries the key 3. -/
theorem C7_counterexample :
    ¬ ∀ st : ServerState, (∃ ops : List Op, st = run ops) →
        ∀ k ∈ st.alerts.map Prod.fst, k = 1 ∨ k = 2 := by
  intro hall
  have h3 := hall (run [Op.clearAlert 3]) ⟨[Op.clearAlert 3], rfl⟩ 3
    (by with_unfolding_all decide)
  rcases h3 with h | h <;> exact absurd h (by decide)

/-- C7 (amended): in every reachable state, every remembered or
published sensor state is in {0,1}; the row keys of the alerts mapping
are 1, 2, or a row passed to some clear-alert call of the trace; every
misplaced entry's found_in is the caller-supplied truthy (nonzero)
value (it is not validated against {1,2}); and a row's alert is true
only if some ingest step of the trace fired that row (a 0→1 transition,
states being normalized) with no clear of that row afterwards. -/
theorem C7_reachable_invariants (ops : List Op) :
    statesOK (run ops)
    ∧ (∀ k ∈ (run ops).alerts.map Prod.fst, k = 1 ∨ k = 2 ∨ k ∈ clearRows ops)
    ∧ (∀ e ∈ (run ops).misplaced, e.found_in ≠ 0)
    ∧ (∀ r : Nat, dictGet (run ops).alerts r = some true → Justified ops r) :=
  ⟨statesOK_run ops, alerts_keys_run ops, misplaced_found_in_run ops,
   fun r h => alerts_true_justified ops r h⟩

/-- Witness for C7: after one ingest trace that raises row 1's alert,
the justification conjunct yields a firing step, and the other
invariant conjuncts hold at the reached state. -/
theorem C7_witness :
    statesOK (run [Op.ingest 0 "50,0,99,0", Op.ingest 1 "10,1,99,0"])
    ∧ Justified [Op.ingest 0 "50,0,99,0", Op.ingest 1 "10,1,99,0"] 1 :=
  ⟨(C7_reachable_invariants [Op.ingest 0 "50,0,99,0", Op.ingest 1 "10,1,99,0"]).1,
   (C7_reachable_invariants [Op.ingest 0 "50,0,99,0", Op.ingest 1 "10,1,99,0"]).2.2.2
     1 (by with_unfolding_all decide)⟩

/-! ## C9 -/

theorem read_serial_old_step_eventLog (st : OldState) (t : Nat) (raw : String) :
    (read_serial_old_step st t raw).eventLog =
      st.eventLog ++
        (match parseLineOld raw with
         | none => []
         | some p =>
           (if fireFlagOld st.prev1 p.state1 then
              [⟨t, 1, "Change detected", pyRound1 p.dist1⟩] else [])
           ++ (if fireFlagOld st.prev2 p.state2 then
              [⟨t, 2, "Change detected", pyRound1 p.dist2⟩] else [])) := by
  unfold read_serial_old_step
  cases hp : parseLineOld raw with
  | none => simp
  | some p =>
    simp only
    by_cases hf1 : fireFlagOld st.prev1 p.state1 = true <;>
      by_cases hf2 : fireFlagOld st.prev2 p.state2 = true <;> simp [hf1, hf2]

/-- The old variant's event guard fires on every state change. -/
theorem fireFlagOld_iff {prev : Option Int} {new : Int} :
    fireFlagOld prev new = true ↔ (prev ≠ none ∧ prev ≠ some new) := by
  cases prev with
  | none => simp [fireFlagOld]
  | some ps => simp [fireFlagOld]

/-- Counterexample for C9 as stated: the two ingest loops are not
behaviorally equal.  On `"10,50,10,0,30,40"` they store different
Readings (the old variant keeps the raw state 50, the website stores
the normalized state 1), and the 4-field line `"10,1,99,0"` is accepted
by the website but discarded entirely by the old variant, which
requires exactly 6 fields. -/
theorem C9_counterexample :
    (read_serial_step initState 0 "10,50,10,0,30,40").latest.state1 = some 1
    ∧ (read_serial_old_step initOldState 0 "10,50,10,0,30,40").latest.state1 = some 50
    ∧ (read_serial_step initState 0 "10,50,10,0,30,40").latest.state1
        ≠ (read_serial_old_step initOldState 0 "10,50,10,0,30,40").latest.state1
    ∧ parseLine "10,1,99,0" = some ⟨10, 1, 99, 0, 30, 40⟩
    ∧ parseLineOld "10,1,99,0" = none
    ∧ read_serial_old_step initOldState 0 "10,1,99,0" = initOldState := by
  with_unfolding_all decide

/-- C9 (amended): the two variants' ingest loops are *not* behaviorally
equal.  On a line of exactly 6 numeric fields both store the same
distances and the website's stored per-row state is the 0/1
normalization of the raw state the old variant stores; every event the
website emits is labeled "Needs checking" while every event the old
variant emits is labeled "Change detected"; and the old variant emits
an event on *every* state change of a row (including 1→0), not only on
transitions into state 1. -/
theorem C9_variant_divergence :
    (∀ (raw : String) (a b c d e f : List Char) (d1 d2 lo hi : ℚ) (s1 s2 : Int)
       (sw : ServerState) (so : OldState) (t : Nat),
      (pyStrip raw.data).isEmpty = false →
      "Dist1".data.isPrefixOf (pyStrip raw.data) = false →
      pySplit ',' (pyStrip raw.data) = [a, b, c, d, e, f] →
      pyFloat a = some d1 → pyInt b = some s1 →
      pyFloat c = some d2 → pyInt d = some s2 →
      pyFloat e = some lo → pyFloat f = some hi →
      (read_serial_step sw t raw).latest.dist1 = some d1
      ∧ (read_serial_old_step so t raw).latest.dist1 = some d1
      ∧ (read_serial_step sw t raw).latest.dist2 = some d2
      ∧ (read_serial_old_step so t raw).latest.dist2 = some d2
      ∧ (read_serial_old_step so t raw).latest.state1 = some s1
      ∧ (read_serial_step sw t raw).latest.state1 = some (normState s1)
      ∧ (read_serial_old_step so t raw).latest.state2 = some s2
      ∧ (read_serial_step sw t raw).latest.state2 = some (normState s2))
    ∧ (∀ (st : ServerState) (t : Nat) (raw : String) (ev : Event),
        ev ∈ (read_serial_step st t raw).eventLog →
        ev ∈ st.eventLog ∨ ev.label = "Needs checking")
    ∧ (∀ (st : OldState) (t : Nat) (raw : String) (ev : Event),
        ev ∈ (read_serial_old_step st t raw).eventLog →
        ev ∈ st.eventLog ∨ ev.label = "Change detected")
    ∧ (∀ (st : OldState) (t : Nat) (raw : String) (p : OldParsed),
        parseLineOld raw = some p →
        (read_serial_old_step st t raw).eventLog.countP (fun e => e.row == 1)
          = st.eventLog.countP (fun e => e.row == 1)
            + (if st.prev1 ≠ none ∧ st.prev1 ≠ some p.state1 then 1 else 0)) := by
  refine ⟨?_, ?_, ?_, ?_⟩
  · intro raw a b c d e f d1 d2 lo hi s1 s2 sw so t h1 h2 h3 hA hB hC hD hE hF
    have hpNew : parseLine raw = some ⟨d1, normState s1, d2, normState s2, lo, hi⟩ := by
      rw [parseLine_of_fields h1 h2 h3 (by simp)]
      exact parseFields_six hA hB hC hD hE hF
    have hpOld : parseLineOld raw = some ⟨d1, s1, d2, s2⟩ :=
      parseLineOld_six h1 h2 h3 hA hB hC hD
    unfold read_serial_step read_serial_old_step
    rw [hpNew, hpOld]
    exact ⟨rfl, rfl, rfl, rfl, rfl, rfl, rfl, rfl⟩
  · intro st t raw ev hev
    rw [read_serial_step_eventLog] at hev
    rcases List.mem_append.mp hev with h | h
    · exact Or.inl h
    · right
      rcases hp : parseLine raw with _ | p <;> rw [hp] at h
      · exact absurd h (List.not_mem_nil ev)
      · rcases List.mem_append.mp h with h' | h' <;>
        · revert h'
          split <;> intro h'
          · rw [List.mem_singleton] at h'
            subst h'
            rfl
          · exact absurd h' (List.not_mem_nil ev)
  · intro st t raw ev hev
    rw [read_serial_old_step_eventLog] at hev
    rcases List.mem_append.mp hev with h | h
    · exact Or.inl h
    · right
      rcases hp : parseLineOld raw with _ | p <;> rw [hp] at h
      · exact absurd h (List.not_mem_nil ev)
      · rcases List.mem_append.mp h with h' | h' <;>
        · revert h'
          split <;> intro h'
          · rw [List.mem_singleton] at h'
            subst h'
            rfl
          · exact absurd h' (List.not_mem_nil ev)
  · intro st t raw p hp
    rw [read_serial_old_step_eventLog, hp, List.countP_append, List.countP_append]
    by_cases h1 : st.prev1 ≠ none ∧ st.prev1 ≠ some p.state1
    · rw [if_pos h1, fireFlagOld_iff.mpr h1]
      by_cases h2 : fireFlagOld st.prev2 p.state2 = true <;>
        simp [h2, List.countP_cons]
    · rw [if_neg h1]
      have hf : fireFlagOld st.prev1 p.state1 = false :=
        Bool.not_eq_true _ ▸ (fun hh => h1 (fireFlagOld_iff.mp hh))
      rw [hf]
      by_cases h2 : fireFlagOld st.prev2 p.state2 = true <;>
        simp [h2, List.countP_cons]

/-- Witness for C9: on the 6-field line `"20,50,99,0,30,40"` the
website stores state 1 where the old variant stores the raw 50, with
equal distances. -/
theorem C9_witness :
    (read_serial_step initState 0 "20,50,99,0,30,40").latest.dist1 = some 20
    ∧ (read_serial_old_step initOldState 0 "20,50,99,0,30,40").latest.dist1 = some 20
    ∧ (read_serial_step initState 0 "20,50,99,0,30,40").latest.dist2 = some 99
    ∧ (read_serial_old_step initOldState 0 "20,50,99,0,30,40").latest.dist2 = some 99
    ∧ (read_serial_old_step initOldState 0 "20,50,99,0,30,40").latest.state1 = some 50
    ∧ (read_serial_step initState 0 "20,50,99,0,30,40").latest.state1 = some (normState 50)
    ∧ (read_serial_old_step initOldState 0 "20,50,99,0,30,40").latest.state2 = some 0
    ∧ (read_serial_step initState 0 "20,50,99,0,30,40").latest.state2 = some (normState 0) :=
  C9_variant_divergence.1 "20,50,99,0,30,40"
    "20".data "50".data "99".data "0".data "30".data "40".data
    20 99 30 40 50 0 initState initOldState 0
    (by with_unfolding_all decide) (by with_unfolding_all decide)
    (by with_unfolding_all decide) (by with_unfolding_all decide)
    (by with_unfolding_all decide) (by with_unfolding_all decide)
    (by with_unfolding_all decide) (by with_unfolding_all decide)
    (by with_unfolding_all decide)

end JarTrack
